import Mathlib

/-!
Verification development for the memcached server (`src/memcached.c`).

Shallow embedding: each C function relevant to the claims is translated to
a Lean definition over explicit state; machine integers are `Nat`/`Int`
with explicit `% 2^w` where overflow matters.  Definitions keep the
source's names where Lean allows.
-/

set_option maxRecDepth 4096

namespace Memcached

/-- Connection states (enum `conn_states` in the source).  Only the states
the claims touch are listed; `conn_bp_header_size_unknown` is the binary
protocol re-entry state used by `transmit` on UDP hard error. -/
inductive ConnState where
  | conn_listening
  | conn_read
  | conn_nread
  | conn_swallow
  | conn_write
  | conn_mwrite
  | conn_closing
  | conn_bp_header_size_unknown
  deriving DecidableEq, Repr

export ConnState (conn_listening conn_read conn_nread conn_swallow conn_write
  conn_mwrite conn_closing conn_bp_header_size_unknown)

/-- The three storage commands (`NREAD_ADD`, `NREAD_SET`, `NREAD_REPLACE`). -/
inductive Comm where
  | NREAD_ADD
  | NREAD_SET
  | NREAD_REPLACE
  deriving DecidableEq, Repr

export Comm (NREAD_ADD NREAD_SET NREAD_REPLACE)

/-! ### `realtime` (memcached.c lines 104-128)

`rel_time_t` is an unsigned 32-bit count of seconds since server start; in
the ranges the claims cover every cast in the source is value-preserving,
so the embedding works over `Int`.  `started` is the absolute wall time at
startup and `current_time` the seconds elapsed since then. -/

/-- `REALTIME_MAXDELTA` = 60*60*24*30 (memcached.c line 104). -/
def REALTIME_MAXDELTA : Int := 60 * 60 * 24 * 30

/-- `realtime(exptime)` (memcached.c lines 110-128): converts a wire-level
`exptime` to internal server time. -/
def realtime (started current_time : Int) (exptime : Int) : Int :=
  if exptime = 0 then 0
  else if exptime > REALTIME_MAXDELTA then
    if exptime ≤ started then 1 else exptime - started
  else exptime + current_time

/-! ### Arithmetic commands (`do_add_delta`, memcached.c lines 1786-1872)

`value` is a `uint32_t` (the item's value parsed by `item_strtoul`) and
`delta` an `unsigned int` parsed from the command line; C unsigned
arithmetic on them is arithmetic modulo 2^32. -/

/-- Modulus of C `uint32_t` arithmetic. -/
def UINT32_MOD : Nat := 4294967296

/-- The numeric result computed by `do_add_delta` (memcached.c lines
1812-1817): `if (incr != 0) value += delta; else { if (delta >= value)
value = 0; else value -= delta; }`, on `uint32_t`. -/
def do_add_delta_value (incr : Bool) (value delta : Nat) : Nat :=
  if incr then (value + delta) % UINT32_MOD
  else if delta ≥ value then 0 else value - delta

/-- The reply string built by `do_add_delta` on the non-allocation-failure
paths: `snprintf(buf, 32, "%u", value)` (memcached.c line 1821), i.e. the
decimal rendering of the new value, which is also the byte string copied
into the stored item (`item_memcpy_to(…, buf, res, …)`, lines 1859/1864). -/
def do_add_delta_reply (incr : Bool) (value delta : Nat) : String :=
  Nat.repr (do_add_delta_value incr value delta)

/-! ### `out_string` (memcached.c lines 835-861) -/

/-- The part of the connection state `out_string` reads and writes. -/
structure OConn where
  wsize : Nat
  msgcurr : Nat
  msgused : Nat
  iovused : Nat
  wbuf : String
  wbytes : Nat
  state : ConnState
  write_and_go : ConnState
  deriving Repr

/-- `out_string(c, str)` (memcached.c lines 835-861): reset the message
lists, replace the message with `"SERVER_ERROR output line too long"` when
it does not fit the write buffer, copy message + `"\r\n"` into `wbuf`, and
enter `conn_write` with `write_and_go = conn_read`. -/
def out_string (c : OConn) (str : String) : OConn :=
  let c := { c with msgused := 0, iovused := 0 }
  let str := if str.length + 2 > c.wsize then "SERVER_ERROR output line too long"
             else str
  { c with wbuf := str ++ "\r\n",
           wbytes := str.length + 2,
           state := conn_write,
           write_and_go := conn_read }

/-! ### Store decision (`do_store_item`, memcached.c lines 899-948)

`do_store_item` touches the cache only at the new item's own key, so the
cache is modelled at that key: absent, or present with a delete-locked
flag.  Item identities are `Nat`. -/

/-- The state of the cache at one key: no item, or an item `it` with its
delete-locked flag. -/
inductive Entry where
  | absent
  | present (it : Nat) (locked : Bool)
  deriving DecidableEq, Repr

/-- Modelled from the spec: `do_item_get_notedeleted` lives in `items.c`,
which is not part of the sources; §4.1 specifies `get` as ignoring
delete-locked items, and `do_store_item` reads the noted flag through the
out-parameter.  Returns (item found, delete_locked flag). -/
def do_item_get_notedeleted (e : Entry) : Option Nat × Bool :=
  match e with
  | .absent => (none, false)
  | .present it false => (some it, false)
  | .present _ true => (none, true)

/-- Modelled from the spec: `do_item_get_nocheck` lives in `items.c`; §4.2
describes it as finding "the old hidden item that's in the namespace/LRU
but wasn't returned by item_get" — the lookup that ignores the
delete-lock. -/
def do_item_get_nocheck (e : Entry) : Option Nat :=
  match e with
  | .absent => none
  | .present it _ => some it

/-- Everything observable `do_store_item` does: whether it stored, which
item (if any) it promoted to the LRU head via `do_item_update`, and the
state of the key afterwards (`do_item_replace`/`do_item_link` both leave
the key mapped to the new, unlocked item). -/
structure StoreOutcome where
  stored : Bool
  touched : Option Nat
  entry : Entry
  deriving DecidableEq, Repr

/-- `do_store_item(it, comm, key)` (memcached.c lines 899-948), translated
branch for branch over the one-key cache state `e`; `n` is the new item. -/
def do_store_item (e : Entry) (comm : Comm) (n : Nat) : StoreOutcome :=
  let (old_it, delete_locked) := do_item_get_notedeleted e
  if old_it.isSome ∧ comm = NREAD_ADD then
    -- add only adds a nonexistent item, but promote to head of LRU
    { stored := false, touched := old_it, entry := e }
  else if old_it.isNone ∧ comm = NREAD_REPLACE then
    -- replace only replaces an existing value; don't store
    { stored := false, touched := none, entry := e }
  else if delete_locked ∧ (comm = NREAD_REPLACE ∨ comm = NREAD_ADD) then
    -- replace and add can't override delete locks; don't store
    { stored := false, touched := none, entry := e }
  else
    -- "set" commands can override the delete lock window
    let old_it := if delete_locked then do_item_get_nocheck e else old_it
    match old_it with
    | some _ => { stored := true, touched := none, entry := .present n false }
    | none => { stored := true, touched := none, entry := .present n false }

/-! ### `complete_nread` (memcached.c lines 868-891) -/

/-- Result of `complete_nread`: the reply line handed to `out_string` and
the cache state at the key afterwards. -/
structure NreadOutcome where
  reply : String
  entry : Entry
  deriving DecidableEq, Repr

/-- `complete_nread(c)` (memcached.c lines 868-891): after the value body
of a set/add/replace arrived, check the two trailing bytes `c->crlf`
against `"\r\n"` (bytes 13 10); on mismatch reply `CLIENT_ERROR bad data
chunk` without consulting the store, else run the store decision and reply
`STORED`/`NOT_STORED`. -/
def complete_nread (crlf : List Nat) (e : Entry) (comm : Comm) (n : Nat) :
    NreadOutcome :=
  if crlf ≠ [13, 10] then
    { reply := "CLIENT_ERROR bad data chunk", entry := e }
  else
    let r := do_store_item e comm n
    { reply := if r.stored then "STORED" else "NOT_STORED", entry := r.entry }

/-! ### UDP framing (`add_msghdr`, `add_iov`, `build_udp_headers`,
memcached.c lines 189-227, 721-832)

Modelled from the spec: `UDP_MAX_PAYLOAD_SIZE` (1400) and
`UDP_HEADER_SIZE` (8) are defined in `memcached.h`, which is not among
the sources; §6 gives the datagram limit as 1400 bytes and the header as
8 bytes.  `IOV_MAX` is the system scatter/gather limit (1024 on Linux). -/

def UDP_MAX_PAYLOAD_SIZE : Nat := 1400

def UDP_HEADER_SIZE : Nat := 8

def IOV_MAX : Nat := 1024

/-- One outgoing `struct msghdr`: the total bytes of its iovec entries
(the source's `c->msgbytes` counter for the message while it is current)
and the number of entries (`msg_iovlen`). -/
structure Msg where
  bytes : Nat
  iovlen : Nat
  deriving DecidableEq, Repr

/-- The part of the connection `add_iov`/`add_msghdr` read and write:
whether the connection is UDP, the message list (last entry = current
message), and the iovec array usage/capacity.  The lazy first allocation
of the iov array (`alloc_conn_buffer`) is external; the capacity it
produced is the `iovsize` field, and `ensure_iov_space` fails exactly
when `iovused ≥ iovsize`. -/
structure IovConn where
  udp : Bool
  msgs : List Msg
  iovused : Nat
  iovsize : Nat
  deriving DecidableEq, Repr

/-- Replace the last (= current) message of the list. -/
def setLastMsg (l : List Msg) (m : Msg) : List Msg :=
  l.dropLast ++ [m]

/-- `add_msghdr(c)` (memcached.c lines 189-227): append a zeroed message
(growth of `msglist` by `pool_realloc` is the external allocator; the
in-src failure point is `ensure_iov_space`), then for UDP reserve the
8-byte header slot through `add_iov(c, NULL, UDP_HEADER_SIZE, false)` —
that inner call is inlined here: on the fresh message (`iovlen = 0 ≠
IOV_MAX`, `msgbytes = 0 < UDP_MAX_PAYLOAD_SIZE`, `8 + 0 ≤
UDP_MAX_PAYLOAD_SIZE`) it neither opens a new message nor splits, and its
own `ensure_iov_space` check repeats the one already made. -/
def add_msghdr (c : IovConn) : Option IovConn :=
  if c.iovused < c.iovsize then
    if c.udp then
      some { c with msgs := c.msgs ++ [⟨UDP_HEADER_SIZE, 1⟩],
                    iovused := c.iovused + 1 }
    else
      some { c with msgs := c.msgs ++ [⟨0, 0⟩] }
  else none

/-- One iteration of the `do … while (leftover > 0)` loop of `add_iov`
(memcached.c lines 729-777): possibly open a new message, check iov
space, split the fragment at the datagram limit, and append.  Returns the
new state and the `leftover` length still to add. -/
def add_iov_once (c : IovConn) (len : Nat) : Option (IovConn × Nat) :=
  match c.msgs.getLast? with
  | none => none   -- the source asserts c->msgused > 0
  | some m =>
    let limit_to_mtu := c.udp || c.msgs.length == 1
    let c1 := if m.iovlen == IOV_MAX ||
                 (limit_to_mtu && UDP_MAX_PAYLOAD_SIZE ≤ m.bytes) then
                add_msghdr c
              else some c
    match c1 with
    | none => none
    | some c1 =>
      if c1.iovused < c1.iovsize then   -- ensure_iov_space
        match c1.msgs.getLast? with
        | none => none
        | some m1 =>
          let (len', leftover) :=
            if limit_to_mtu && UDP_MAX_PAYLOAD_SIZE < len + m1.bytes then
              (len - (len + m1.bytes - UDP_MAX_PAYLOAD_SIZE),
               len + m1.bytes - UDP_MAX_PAYLOAD_SIZE)
            else (len, 0)
          some ({ c1 with
                    msgs := setLastMsg c1.msgs ⟨m1.bytes + len', m1.iovlen + 1⟩,
                    iovused := c1.iovused + 1 }, leftover)
      else none

/-- The `add_iov` loop, fuel-indexed.  Each iteration with a positive
`leftover` strictly shrinks the remaining length (the split leaves
`leftover < len`), so `len + 1` fuel always suffices; see
`add_iov_once_leftover_lt`. -/
def add_iov_loop : Nat → IovConn → Nat → Option IovConn
  | 0, _, _ => none
  | fuel + 1, c, len =>
    match add_iov_once c len with
    | none => none
    | some (c', leftover) =>
      if leftover > 0 then add_iov_loop fuel c' leftover else some c'

/-- `add_iov(c, buf, len, is_start)` (memcached.c lines 721-780). -/
def add_iov (c : IovConn) (len : Nat) : Option IovConn :=
  add_iov_loop (len + 1) c len

/-- The 8 header bytes `build_udp_headers` writes for datagram `i` of `n`
(memcached.c lines 820-827): request id, sequence number, datagram count
and the offset word, two bytes each, high byte first; each `*hdr++ = e`
stores a C `unsigned char`, i.e. `e % 256`. -/
def udp_header (request_id i n offset : Nat) : List Nat :=
  [request_id / 256 % 256, request_id % 256,
   i / 256 % 256, i % 256,
   n / 256 % 256, n % 256,
   offset / 256 % 256, offset % 256]

/-- `build_udp_headers(c)` (memcached.c lines 786-832): for each of the
`c->msgused` messages, point its first iovec at an 8-byte header built by
`udp_header`; `offsets i` is the first-response-line offset computed from
the message's marked iovecs (`msg_flags`/`msg_controllen`), placed in the
header's last two bytes. -/
def build_udp_headers (request_id n : Nat) (offsets : Nat → Nat) :
    List (List Nat) :=
  (List.range n).map fun i => udp_header request_id i n (offsets i)

/-! ### `try_read_udp` (memcached.c lines 2280-2336) -/

/-- Result of `try_read_udp` on a datagram: either a reply is emitted and
no command is processed (return 0 with `out_string`), or the buffer
becomes command input (return 1), or the datagram is dropped (return 0,
too short). -/
inductive UdpReadResult where
  | reply (s : String)
  | command (input : List Nat)
  | dropped
  deriving DecidableEq, Repr

/-- `try_read_udp(c)` for a non-binary connection (memcached.c lines
2280-2336), given the received datagram `buf` of length `res = buf.length`
as bytes: datagrams of at most 8 bytes are dropped; the request id is
`buf[0]*256 + buf[1]`; a header whose bytes 4-5 are not `0,1` is rejected
with `SERVER_ERROR multi-packet request not supported`; otherwise the
8-byte header is stripped (`memmove(c->rbuf, c->rbuf + 8, res - 8)`) and
the rest becomes the command input. -/
def try_read_udp (buf : List Nat) : UdpReadResult :=
  if buf.length > 8 then
    if buf.getD 4 0 ≠ 0 ∨ buf.getD 5 0 ≠ 1 then
      .reply "SERVER_ERROR multi-packet request not supported"
    else
      .command (buf.drop 8)
  else .dropped

/-- The request id `try_read_udp` stores in `c->request_id` (memcached.c
line 2293): `buf[0] * 256 + buf[1]`. -/
def udp_request_id (buf : List Nat) : Nat :=
  buf.getD 0 0 * 256 + buf.getD 1 0

/-! ### `transmit` (memcached.c lines 2470-2539) -/

/-- The four return values of `transmit`. -/
inductive TransmitResult where
  | TRANSMIT_COMPLETE
  | TRANSMIT_INCOMPLETE
  | TRANSMIT_SOFT_ERROR
  | TRANSMIT_HARD_ERROR
  deriving DecidableEq, Repr

export TransmitResult (TRANSMIT_COMPLETE TRANSMIT_INCOMPLETE
  TRANSMIT_SOFT_ERROR TRANSMIT_HARD_ERROR)

/-- Outcome of the `sendmsg` call together with the `update_event` result
consulted on would-block: `sent n` is `res = n > 0`; `wouldblock ok` is
`res = -1` with `EAGAIN`/`EWOULDBLOCK` (and `ok` the `update_event`
result); `closed` is `res = 0`; `err` is `res = -1` with any other
errno. -/
inductive SendOutcome where
  | sent (n : Nat)
  | wouldblock (update_event_ok : Bool)
  | closed
  | err
  deriving DecidableEq, Repr

/-- The connection state `transmit` reads and writes: the message cursor
and count, per-message iovec counts, the protocol flavour (`c->binary`)
and transport (`c->udp`), and the connection state. -/
structure TConn where
  binary : Bool
  udp : Bool
  msgcurr : Nat
  msgused : Nat
  cur_iovlen : Nat   -- msg_iovlen of msglist[msgcurr]
  state : ConnState
  deriving DecidableEq, Repr

/-- `transmit(c)` (memcached.c lines 2470-2539).  The iovec bookkeeping
after a successful partial send only advances pointers; the branch
structure and every state assignment are kept.  `sendmsg` happens only
when a message remains after the empty-message advance. -/
def transmit (c : TConn) (send : SendOutcome) : TransmitResult × TConn :=
  let c := if c.msgcurr < c.msgused ∧ c.cur_iovlen = 0 then
             { c with msgcurr := c.msgcurr + 1 } else c
  if c.msgcurr < c.msgused then
    match send with
    | .sent _ => (TRANSMIT_INCOMPLETE, c)
    | .wouldblock true => (TRANSMIT_SOFT_ERROR, c)
    | .wouldblock false =>
        (TRANSMIT_HARD_ERROR, { c with state := conn_closing })
    | .closed | .err =>
        -- res == 0, or res == -1 with an errno other than EAGAIN/EWOULDBLOCK
        (TRANSMIT_HARD_ERROR,
         { c with state :=
             if c.binary then
               if c.udp then conn_bp_header_size_unknown else conn_closing
             else
               if c.udp then conn_read else conn_closing })
  else (TRANSMIT_COMPLETE, c)

/-! ### Allocation-failure path of `process_update_command`
(memcached.c lines 1708-1721) and the Swallow state
(memcached.c lines 2679-2728) -/

/-- The connection fields the update command's failure path writes. -/
structure UpdConn where
  out : OConn
  sbytes : Nat
  deriving Repr

/-- The allocation-failure branch of `process_update_command`
(memcached.c lines 1711-1721): when `item_alloc` or
`item_setup_receive` fails, reply `SERVER_ERROR object too large for
cache` when `item_size_ok(nkey, flags, vlen)` is false and `SERVER_ERROR
out of memory` otherwise, then override `write_and_go` to `conn_swallow`
with `sbytes = vlen + 2` and return without touching the store.
`item_size_ok` lives in `items.c` (not among the sources) and is passed
as the boolean `size_ok`. -/
def process_update_alloc_failure (c : OConn) (vlen : Nat) (size_ok : Bool) :
    UpdConn :=
  let c := out_string c (if !size_ok then "SERVER_ERROR object too large for cache"
                         else "SERVER_ERROR out of memory")
  { out := { c with write_and_go := conn_swallow }, sbytes := vlen + 2 }

/-- The `TRANSMIT_COMPLETE` arm for a connection in `conn_write`
(memcached.c lines 2752-2768): the state becomes `c->write_and_go`. -/
def conn_write_complete (state write_and_go : ConnState) : ConnState :=
  if state = conn_write then write_and_go else state

/-- The `conn_swallow` arm of `drive_machine` (memcached.c lines
2679-2728), run to completion over the sizes of the successive byte
chunks it sees (leftover read-buffer bytes, then socket reads; a socket
`read` is capped at `min(rsize, sbytes)` and the buffer copy at
`min(rbytes, sbytes)`, so every chunk consumes `min chunk sbytes`).
Returns the total number of bytes discarded when the machine reaches
`conn_read` (`sbytes == 0`), or `none` when the chunk list is exhausted
first (the connection suspended waiting for more data). -/
def swallow_run : Nat → List Nat → Option Nat
  | 0, _ => some 0
  | _ + 1, [] => none
  | sbytes + 1, chunk :: rest =>
    let tocopy := min chunk (sbytes + 1)
    (swallow_run (sbytes + 1 - tocopy) rest).map (tocopy + ·)

/-! ## Theorems -/

/-- Claim C3: `realtime` maps `0` to never-expire (`0`); a value in
`(0, 30*86400]` to that many seconds from now (`t + current_time`); and a
value above `30*86400` to the absolute timestamp `t - started`, except
that an absolute timestamp at or before `started` maps to exactly `1`. -/
theorem claim_C3_realtime (started current_time t : Int) :
    (t = 0 → realtime started current_time t = 0) ∧
    (0 < t ∧ t ≤ 30 * 86400 → realtime started current_time t = t + current_time) ∧
    (30 * 86400 < t →
      (t ≤ started → realtime started current_time t = 1) ∧
      (started < t → realtime started current_time t = t - started)) := by
  unfold realtime REALTIME_MAXDELTA
  refine ⟨fun h => by simp [h], fun h => ?_, fun h => ⟨fun h2 => ?_, fun h2 => ?_⟩⟩
  · rw [if_neg (by omega), if_neg (by omega)]
  · rw [if_neg (by omega), if_pos (by omega), if_pos h2]
  · rw [if_neg (by omega), if_pos (by omega), if_neg (by omega)]

/-- Witness for C3 at concrete inputs: with `started = 1000000000` and
`current_time = 500`, a delta `t = 60` expires at `560`, and an absolute
timestamp `999999999 > 30*86400` at or before `started` maps to `1`. -/
theorem claim_C3_realtime_witness :
    realtime 1000000000 500 60 = 60 + 500 ∧
    realtime 1000000000 500 999999999 = 1 := by
  exact ⟨(claim_C3_realtime 1000000000 500 60).2.1 (by norm_num),
         ((claim_C3_realtime 1000000000 500 999999999).2.2 (by norm_num)).1
           (by norm_num)⟩

/-- Claim C4 counterexample: the claim says the `incr` result is `v + d`
saturated at the maximum representable unsigned value; at `v = 2^32 - 1`,
`d = 1` the code computes `(v + d) % 2^32 = 0`, not the saturated
`min (v + d) (2^32 - 1) = 2^32 - 1`. -/
theorem claim_C4_counterexample :
    ¬ do_add_delta_value true 4294967295 1 = min (4294967295 + 1) 4294967295 := by
  decide

/-- Claim C4 amended: for an `incr` on an existing item with parsed value
`v` and delta `d` (both `uint32_t` values), the stored numeric result and
the decimal reply render `(v + d) mod 2^32`: the sum when it does not
overflow, and the wrapped-around `v + d - 2^32` when it does — the
addition wraps rather than saturates. -/
theorem claim_C4_incr_wraps (v d : Nat) (hv : v < UINT32_MOD) (hd : d < UINT32_MOD) :
    (v + d < UINT32_MOD → do_add_delta_value true v d = v + d) ∧
    (UINT32_MOD ≤ v + d → do_add_delta_value true v d = v + d - UINT32_MOD) ∧
    do_add_delta_reply true v d = Nat.repr (do_add_delta_value true v d) := by
  unfold do_add_delta_value do_add_delta_reply UINT32_MOD at *
  simp only [if_pos rfl, if_true]
  refine ⟨fun h => Nat.mod_eq_of_lt h, fun h => ?_, rfl⟩
  omega

/-- Witness for C4 amended at `v = 2^32 - 1`, `d = 1`: the sum overflows
and wraps to `0`. -/
theorem claim_C4_incr_wraps_witness :
    do_add_delta_value true 4294967295 1 = 4294967295 + 1 - UINT32_MOD :=
  (claim_C4_incr_wraps 4294967295 1 (by norm_num [UINT32_MOD])
    (by norm_num [UINT32_MOD])).2.1 (by norm_num [UINT32_MOD])

/-- Claim C5: a `decr` with parsed value `v` and delta `d` stores
`max (0, v - d)`: exactly `0` whenever `d ≥ v`, and the reply is the
decimal rendering of that result. -/
theorem claim_C5_decr_saturates (v d : Nat) :
    ((do_add_delta_value false v d : Int) = max 0 ((v : Int) - d)) ∧
    (d ≥ v → do_add_delta_value false v d = 0) ∧
    do_add_delta_reply false v d = Nat.repr (do_add_delta_value false v d) := by
  unfold do_add_delta_value do_add_delta_reply
  simp only [Bool.false_eq_true, if_false]
  refine ⟨?_, fun h => by rw [if_pos h], rfl⟩
  by_cases h : d ≥ v
  · rw [if_pos h]
    have : (v : Int) - d ≤ 0 := by omega
    simp [max_eq_left this]
  · rw [if_neg h]
    omega

/-- Witness for C5 at `v = 3`, `d = 100`: the result saturates to `0`. -/
theorem claim_C5_decr_saturates_witness :
    do_add_delta_value false 3 100 = 0 :=
  (claim_C5_decr_saturates 3 100).2.1 (by norm_num)

/-- Claim C10: `out_string` always emits the message bytes followed by
exactly `"\r\n"`, within the write buffer: whenever the message plus the
terminator would exceed `wsize`, the message is replaced by
`"SERVER_ERROR output line too long"` before copying (so, provided the
buffer can hold that 35-byte fallback, the copy never exceeds `wsize`),
and the connection enters `conn_write` with `write_and_go = conn_read`. -/
theorem claim_C10_out_string (c : OConn) (s : String) (hw : 35 ≤ c.wsize) :
    (out_string c s).wbytes ≤ c.wsize ∧
    (∃ msg, (out_string c s).wbuf = msg ++ "\r\n" ∧
            (out_string c s).wbytes = msg.length + 2 ∧
            (s.length + 2 > c.wsize → msg = "SERVER_ERROR output line too long") ∧
            (¬ s.length + 2 > c.wsize → msg = s)) ∧
    (out_string c s).state = conn_write ∧
    (out_string c s).write_and_go = conn_read := by
  have h33 : ("SERVER_ERROR output line too long" : String).length = 33 := by decide
  by_cases h : s.length + 2 > c.wsize
  · refine ⟨?_, ⟨"SERVER_ERROR output line too long", ?_, ?_, fun _ => rfl,
      fun hc => absurd h hc⟩, rfl, rfl⟩
    · simp only [out_string, if_pos h, h33]
      omega
    · simp only [out_string, if_pos h]
    · simp only [out_string, if_pos h]
  · refine ⟨?_, ⟨s, ?_, ?_, fun hc => absurd hc h, fun _ => rfl⟩, rfl, rfl⟩
    · simp only [out_string, if_neg h]
      omega
    · simp only [out_string, if_neg h]
    · simp only [out_string, if_neg h]

/-- Witness for C10: with `wsize = 2048` (the write buffer's allocation
size) a 4-byte message is emitted verbatim with the trailing `"\r\n"`. -/
theorem claim_C10_out_string_witness :
    (out_string ⟨2048, 0, 0, 0, "", 0, conn_read, conn_read⟩ "GOOD").wbytes ≤ 2048 ∧
    (out_string ⟨2048, 0, 0, 0, "", 0, conn_read, conn_read⟩ "GOOD").state = conn_write := by
  have h := claim_C10_out_string ⟨2048, 0, 0, 0, "", 0, conn_read, conn_read⟩ "GOOD"
    (by norm_num)
  exact ⟨h.1, h.2.2.1⟩

/-- Claim C9: a hard transmit failure (`sendmsg` returning 0, or failing
with an error other than would-block) on a UDP text connection never
leads to `conn_closing` — the connection goes back to `conn_read` — while
the same failure on a TCP (stream) text connection goes to
`conn_closing`. -/
theorem claim_C9_transmit_hard_error (c : TConn) (send : SendOutcome)
    (hb : c.binary = false) (hmsg : c.msgcurr < c.msgused)
    (hiov : c.cur_iovlen ≠ 0) (hhard : send = .closed ∨ send = .err) :
    (transmit c send).1 = TRANSMIT_HARD_ERROR ∧
    (c.udp = true → (transmit c send).2.state = conn_read ∧
                    (transmit c send).2.state ≠ conn_closing) ∧
    (c.udp = false → (transmit c send).2.state = conn_closing) := by
  unfold transmit
  have hadv : ¬ (c.msgcurr < c.msgused ∧ c.cur_iovlen = 0) := by tauto
  rw [if_neg hadv, if_pos hmsg]
  rcases hhard with h | h <;> subst h <;>
    refine ⟨rfl, fun hu => ?_, fun hu => ?_⟩ <;> simp [hb, hu]

/-- Witness for C9: a UDP text connection with one pending message, on
`sendmsg` returning 0, yields a hard error with state `conn_read`. -/
theorem claim_C9_transmit_hard_error_witness :
    (transmit ⟨false, true, 0, 1, 2, conn_mwrite⟩ .closed).1 = TRANSMIT_HARD_ERROR ∧
    (transmit ⟨false, true, 0, 1, 2, conn_mwrite⟩ .closed).2.state = conn_read := by
  have h := claim_C9_transmit_hard_error ⟨false, true, 0, 1, 2, conn_mwrite⟩ .closed
    rfl (by decide) (by decide) (Or.inl rfl)
  exact ⟨h.1, (h.2.1 rfl).1⟩

/-- Claim C7: a received UDP datagram longer than 8 bytes whose
total-datagrams field (bytes 4-5, big-endian) is not exactly 1 produces
only the reply `SERVER_ERROR multi-packet request not supported` and no
command input; when the field equals 1, the 8-byte header is stripped and
the remaining bytes become the command input.  The stored request id is
`buf[0]*256 + buf[1]`. -/
theorem claim_C7_try_read_udp (b0 b1 b2 b3 b4 b5 b6 b7 : Nat)
    (rest : List Nat) (hrest : rest ≠ []) (h5 : b5 < 256) :
    (b4 * 256 + b5 ≠ 1 →
      try_read_udp (b0::b1::b2::b3::b4::b5::b6::b7::rest) =
        .reply "SERVER_ERROR multi-packet request not supported") ∧
    (b4 * 256 + b5 = 1 →
      try_read_udp (b0::b1::b2::b3::b4::b5::b6::b7::rest) = .command rest) ∧
    udp_request_id (b0::b1::b2::b3::b4::b5::b6::b7::rest) = b0 * 256 + b1 := by
  have hlen : (b0::b1::b2::b3::b4::b5::b6::b7::rest).length > 8 := by
    simp only [List.length_cons]
    have := List.length_pos.mpr hrest
    omega
  refine ⟨fun hne => ?_, fun heq => ?_, rfl⟩
  · have hcond : (b0::b1::b2::b3::b4::b5::b6::b7::rest).getD 4 0 ≠ 0 ∨
        (b0::b1::b2::b3::b4::b5::b6::b7::rest).getD 5 0 ≠ 1 := by
      show b4 ≠ 0 ∨ b5 ≠ 1
      omega
    rw [try_read_udp, if_pos hlen, if_pos hcond]
  · have hcond : ¬ ((b0::b1::b2::b3::b4::b5::b6::b7::rest).getD 4 0 ≠ 0 ∨
        (b0::b1::b2::b3::b4::b5::b6::b7::rest).getD 5 0 ≠ 1) := by
      show ¬ (b4 ≠ 0 ∨ b5 ≠ 1)
      omega
    rw [try_read_udp, if_pos hlen, if_neg hcond]
    rfl

/-- Witness for C7: a 10-byte datagram with total-datagrams 2 is
rejected; one with total-datagrams 1 has its header stripped. -/
theorem claim_C7_try_read_udp_witness :
    try_read_udp [0, 7, 0, 0, 0, 2, 0, 0, 103, 101] =
      .reply "SERVER_ERROR multi-packet request not supported" ∧
    try_read_udp [0, 7, 0, 0, 0, 1, 0, 0, 103, 101] = .command [103, 101] := by
  exact ⟨(claim_C7_try_read_udp 0 7 0 0 0 2 0 0 [103, 101] (by decide)
            (by decide)).1 (by decide),
         (claim_C7_try_read_udp 0 7 0 0 0 1 0 0 [103, 101] (by decide)
            (by decide)).2.1 (by decide)⟩

/-- Claim C2: after the Nread phase, if the two trailing bytes are not
exactly `"\r\n"` (bytes 13 10) the reply is `CLIENT_ERROR bad data chunk`
and the cache entry for the key is untouched (the store decision is not
invoked); if they are `"\r\n"`, the store decision runs and the reply is
`STORED` or `NOT_STORED`. -/
theorem claim_C2_nread_crlf_check (crlf : List Nat) (e : Entry) (comm : Comm)
    (n : Nat) :
    (crlf ≠ [13, 10] →
      (complete_nread crlf e comm n).reply = "CLIENT_ERROR bad data chunk" ∧
      (complete_nread crlf e comm n).entry = e) ∧
    (crlf = [13, 10] →
      (complete_nread crlf e comm n).reply =
        (if (do_store_item e comm n).stored then "STORED" else "NOT_STORED") ∧
      (complete_nread crlf e comm n).entry = (do_store_item e comm n).entry) := by
  unfold complete_nread
  constructor
  · intro h
    rw [if_pos h]
    exact ⟨rfl, rfl⟩
  · intro h
    rw [if_neg (by simp [h])]
    exact ⟨rfl, rfl⟩

/-- Witness for C2: trailing bytes `13 13` (`"\r\r"`) leave a present,
unlocked entry unchanged and reply `CLIENT_ERROR bad data chunk`; the
correct trailer on the same entry with `set` replies `STORED`. -/
theorem claim_C2_nread_crlf_check_witness :
    (complete_nread [13, 13] (.present 4 false) NREAD_SET 9).reply =
      "CLIENT_ERROR bad data chunk" ∧
    (complete_nread [13, 13] (.present 4 false) NREAD_SET 9).entry =
      .present 4 false ∧
    (complete_nread [13, 10] (.present 4 false) NREAD_SET 9).reply = "STORED" := by
  have h1 := (claim_C2_nread_crlf_check [13, 13] (.present 4 false) NREAD_SET 9).1
    (by decide)
  have h2 := (claim_C2_nread_crlf_check [13, 10] (.present 4 false) NREAD_SET 9).2
    rfl
  exact ⟨h1.1, h1.2, by rw [h2.1]; decide⟩

/-- Claim C1: the store decision follows the spec table.  With no
existing item, `add` and `set` link the new item while `replace` rejects;
with an existing, not delete-locked item, `add` rejects but promotes the
old item to the LRU head while `set` and `replace` substitute the new
item; with a delete-locked item, `set` replaces the hidden item while
`add` and `replace` reject; and the reply is `STORED` exactly when the
store happened. -/
theorem claim_C1_store_decision (o n : Nat) :
    (do_store_item .absent NREAD_ADD n =
       { stored := true, touched := none, entry := .present n false }) ∧
    (do_store_item .absent NREAD_SET n =
       { stored := true, touched := none, entry := .present n false }) ∧
    (do_store_item .absent NREAD_REPLACE n =
       { stored := false, touched := none, entry := .absent }) ∧
    (do_store_item (.present o false) NREAD_ADD n =
       { stored := false, touched := some o, entry := .present o false }) ∧
    (do_store_item (.present o false) NREAD_SET n =
       { stored := true, touched := none, entry := .present n false }) ∧
    (do_store_item (.present o false) NREAD_REPLACE n =
       { stored := true, touched := none, entry := .present n false }) ∧
    (do_store_item (.present o true) NREAD_ADD n =
       { stored := false, touched := none, entry := .present o true }) ∧
    (do_store_item (.present o true) NREAD_SET n =
       { stored := true, touched := none, entry := .present n false }) ∧
    (do_store_item (.present o true) NREAD_REPLACE n =
       { stored := false, touched := none, entry := .present o true }) ∧
    (∀ (e : Entry) (comm : Comm),
      (complete_nread [13, 10] e comm n).reply = "STORED" ↔
        (do_store_item e comm n).stored = true) := by
  refine ⟨rfl, rfl, rfl, rfl, rfl, rfl, rfl, rfl, rfl, fun e comm => ?_⟩
  unfold complete_nread
  rw [if_neg (by simp)]
  cases h : (do_store_item e comm n).stored <;> simp [h]

/-- Helper: a completed Swallow run (reaching `conn_read`) discards
exactly the `sbytes` it started with, whatever chunk sizes arrive. -/
theorem swallow_run_discards_all :
    ∀ (chunks : List Nat) (s d : Nat), swallow_run s chunks = some d → d = s := by
  intro chunks
  induction chunks with
  | nil =>
    intro s d h
    cases s with
    | zero => simpa [swallow_run] using h.symm
    | succ k => simp [swallow_run] at h
  | cons c rest ih =>
    intro s d h
    cases s with
    | zero => simpa [swallow_run] using h.symm
    | succ k =>
      simp only [swallow_run, Option.map_eq_some'] at h
      obtain ⟨d', hd', rfl⟩ := h
      have := ih _ _ hd'
      omega

/-- Claim C8: when item allocation fails for a set/add/replace with value
length `vlen`, the server replies with a `SERVER_ERROR` line (`object too
large for cache` when the size check fails, `out of memory` otherwise),
sets the post-write state to Swallow with `sbytes = vlen + 2`, stores
nothing, and the Swallow run discards exactly `vlen + 2` bytes before
returning to Read.  (`c.wsize ≥ 41` lets the longer error line fit the
write buffer.) -/
theorem claim_C8_alloc_failure_swallow (c : OConn) (vlen : Nat)
    (size_ok : Bool) (hw : 41 ≤ c.wsize) :
    (process_update_alloc_failure c vlen size_ok).out.wbuf =
      (if size_ok then "SERVER_ERROR out of memory"
       else "SERVER_ERROR object too large for cache") ++ "\r\n" ∧
    (process_update_alloc_failure c vlen size_ok).out.state = conn_write ∧
    (process_update_alloc_failure c vlen size_ok).out.write_and_go = conn_swallow ∧
    (process_update_alloc_failure c vlen size_ok).sbytes = vlen + 2 ∧
    conn_write_complete (process_update_alloc_failure c vlen size_ok).out.state
      (process_update_alloc_failure c vlen size_ok).out.write_and_go =
      conn_swallow ∧
    (∀ (chunks : List Nat) (d : Nat),
      swallow_run (process_update_alloc_failure c vlen size_ok).sbytes chunks =
        some d → d = vlen + 2) := by
  have h39 : ("SERVER_ERROR object too large for cache" : String).length = 39 := by
    decide
  have h26 : ("SERVER_ERROR out of memory" : String).length = 26 := by decide
  refine ⟨?_, rfl, rfl, rfl, rfl,
    fun chunks d h => swallow_run_discards_all chunks _ d h⟩
  cases size_ok with
  | false =>
    have hc : ¬ ("SERVER_ERROR object too large for cache" : String).length + 2 >
        c.wsize := by rw [h39]; omega
    simp only [process_update_alloc_failure, out_string, Bool.not_false, if_true,
      if_neg hc, Bool.false_eq_true, if_false]
  | true =>
    have hc : ¬ ("SERVER_ERROR out of memory" : String).length + 2 > c.wsize := by
      rw [h26]; omega
    simp only [process_update_alloc_failure, out_string, Bool.not_true,
      Bool.false_eq_true, if_false, if_neg hc, if_true]

/-- Witness for C8 with a 2048-byte write buffer, `vlen = 5` and the size
check passing: reply `SERVER_ERROR out of memory`, Swallow of exactly 7
bytes. -/
theorem claim_C8_alloc_failure_swallow_witness :
    (process_update_alloc_failure ⟨2048, 0, 0, 0, "", 0, conn_read, conn_read⟩
      5 true).out.wbuf = "SERVER_ERROR out of memory" ++ "\r\n" ∧
    (process_update_alloc_failure ⟨2048, 0, 0, 0, "", 0, conn_read, conn_read⟩
      5 true).sbytes = 5 + 2 := by
  have h := claim_C8_alloc_failure_swallow
    ⟨2048, 0, 0, 0, "", 0, conn_read, conn_read⟩ 5 true (by norm_num)
  exact ⟨by rw [h.1]; rfl, h.2.2.2.1⟩


/-- Every message (datagram) of the connection fits the datagram limit,
header included. -/
def msgs_bounded (c : IovConn) : Prop :=
  ∀ m ∈ c.msgs, m.bytes ≤ UDP_MAX_PAYLOAD_SIZE

/-- Helper: the element `getLast?` returns is a member of the list. -/
theorem mem_of_getLast?_eq {α : Type} {l : List α} {a : α}
    (h : l.getLast? = some a) : a ∈ l := by
  have hx : a ∈ l.getLast? := by rw [h]; rfl
  obtain ⟨hne, rfl⟩ := List.mem_getLast?_eq_getLast hx
  exact List.getLast_mem hne

/-- Helper: membership in `setLastMsg`. -/
theorem mem_setLastMsg {l : List Msg} {x m : Msg} (h : m ∈ setLastMsg l x) :
    m ∈ l ∨ m = x := by
  rcases List.mem_append.1 h with h' | h'
  · exact Or.inl (List.mem_of_mem_dropLast h')
  · exact Or.inr (List.mem_singleton.1 h')

/-- Helper: `add_msghdr` keeps the UDP flag and the datagram bound; a
fresh message holds only the 8-byte header slot (UDP) or nothing. -/
theorem add_msghdr_bounded {c c' : IovConn} (hb : msgs_bounded c)
    (h : add_msghdr c = some c') : c'.udp = c.udp ∧ msgs_bounded c' := by
  unfold add_msghdr at h
  by_cases h1 : c.iovused < c.iovsize
  · rw [if_pos h1] at h
    cases hu : c.udp <;> rw [hu] at h <;> simp only [if_true, if_false,
      Bool.false_eq_true, Bool.true_eq_false, ite_true, ite_false,
      Option.some.injEq] at h <;> subst h
    · exact ⟨rfl, fun m hm => by
        rcases List.mem_append.1 hm with h' | h'
        · exact hb m h'
        · rw [List.mem_singleton.1 h']; decide⟩
    · exact ⟨rfl, fun m hm => by
        rcases List.mem_append.1 hm with h' | h'
        · exact hb m h'
        · rw [List.mem_singleton.1 h']; decide⟩
  · rw [if_neg h1] at h
    exact absurd h (by simp)

/-- Helper: one `add_iov` iteration keeps the UDP flag and the datagram
bound: a split caps the current message at exactly
`UDP_MAX_PAYLOAD_SIZE`, and an unsplit append only happens when the
result stays within it. -/
theorem add_iov_once_bounded {c : IovConn} {len : Nat} {c' : IovConn}
    {leftover : Nat} (hu : c.udp = true) (hb : msgs_bounded c)
    (h : add_iov_once c len = some (c', leftover)) :
    c'.udp = true ∧ msgs_bounded c' := by
  cases hlast : c.msgs.getLast? with
  | none => simp [add_iov_once, hlast] at h
  | some m =>
    simp only [add_iov_once, hlast] at h
    split at h
    next heq =>
      -- the (possibly new-message) state c1 is `none`: impossible
      exact absurd h (by simp)
    next c1 heq =>
      -- heq : (if … then add_msghdr c else some c) = some c1
      have hc1 : c1.udp = true ∧ msgs_bounded c1 := by
        split at heq
        · rcases add_msghdr_bounded hb heq with ⟨he, hbb⟩
          exact ⟨he.trans hu, hbb⟩
        · cases heq; exact ⟨hu, hb⟩
      split at h
      · -- ensure_iov_space succeeded
        cases hlast1 : c1.msgs.getLast? with
        | none => simp [hlast1] at h
        | some m1 =>
          simp only [hlast1] at h
          have hm1 : m1.bytes ≤ UDP_MAX_PAYLOAD_SIZE :=
            hc1.2 m1 (mem_of_getLast?_eq hlast1)
          by_cases hsplit : ((c.udp || c.msgs.length == 1) &&
              decide (UDP_MAX_PAYLOAD_SIZE < len + m1.bytes)) = true
          · simp only [if_pos hsplit, Option.some.injEq, Prod.mk.injEq] at h
            obtain ⟨rfl, -⟩ := h
            refine ⟨hc1.1, fun x hx => ?_⟩
            rcases mem_setLastMsg hx with h' | h'
            · exact hc1.2 x h'
            · subst h'
              simp only [Bool.and_eq_true, decide_eq_true_eq] at hsplit
              show m1.bytes + (len - (len + m1.bytes - UDP_MAX_PAYLOAD_SIZE)) ≤
                UDP_MAX_PAYLOAD_SIZE
              omega
          · simp only [if_neg hsplit, Option.some.injEq, Prod.mk.injEq] at h
            obtain ⟨rfl, -⟩ := h
            refine ⟨hc1.1, fun x hx => ?_⟩
            rcases mem_setLastMsg hx with h' | h'
            · exact hc1.2 x h'
            · subst h'
              simp only [Bool.and_eq_true, decide_eq_true_eq, not_and,
                Bool.or_eq_true, beq_iff_eq, not_lt] at hsplit
              have hltm : c.udp = true ∨ c.msgs.length = 1 := Or.inl hu
              have := hsplit hltm
              show m1.bytes + len ≤ UDP_MAX_PAYLOAD_SIZE
              omega
      · exact absurd h (by simp)

/-- Helper: the `add_iov` loop preserves the datagram bound for any
fuel. -/
theorem add_iov_loop_bounded :
    ∀ (fuel : Nat) (c : IovConn) (len : Nat) (c' : IovConn),
      c.udp = true → msgs_bounded c → add_iov_loop fuel c len = some c' →
      msgs_bounded c' := by
  intro fuel
  induction fuel with
  | zero => intro c len c' _ _ h; exact absurd h (by simp [add_iov_loop])
  | succ k ih =>
    intro c len c' hu hb h
    simp only [add_iov_loop] at h
    split at h
    next => exact absurd h (by simp)
    next c1 lo heq =>
      obtain ⟨hu', hb'⟩ := add_iov_once_bounded hu hb heq
      split at h
      · exact ih _ _ _ hu' hb' h
      · cases h
        exact hb'

/-- Constant zero offsets, for instantiating `build_udp_headers`. -/
def offsets0 : Nat → Nat := fun _ => 0

/-- Claim C6: on a UDP connection, every datagram assembled by
`add_iov`/`add_msghdr` holds at most `UDP_MAX_PAYLOAD_SIZE = 1400` bytes
(header included, hence a fortiori the payload after the 8-byte header),
and `build_udp_headers` prefixes datagram `i` of `n` with an 8-byte
header carrying, big-endian two bytes each, the client's request id, the
sequence number `i` counting from 0, the datagram count `n`, and the
reserved/offset word. -/
theorem claim_C6_udp_framing :
    (∀ (c : IovConn) (len : Nat) (c' : IovConn),
      c.udp = true → msgs_bounded c → add_iov c len = some c' →
      ∀ m ∈ c'.msgs, m.bytes ≤ UDP_MAX_PAYLOAD_SIZE ∧
        m.bytes - UDP_HEADER_SIZE ≤ UDP_MAX_PAYLOAD_SIZE) ∧
    (∀ (c c' : IovConn), c.udp = true → msgs_bounded c →
      add_msghdr c = some c' → msgs_bounded c') ∧
    (∀ (request_id n : Nat) (offsets : Nat → Nat) (i : Nat), i < n →
      (build_udp_headers request_id n offsets).length = n ∧
      ((build_udp_headers request_id n offsets).getD i []).length = 8 ∧
      (request_id < 65536 →
        ((build_udp_headers request_id n offsets).getD i []).getD 0 0 * 256 +
          ((build_udp_headers request_id n offsets).getD i []).getD 1 0 =
          request_id) ∧
      (i < 65536 →
        ((build_udp_headers request_id n offsets).getD i []).getD 2 0 * 256 +
          ((build_udp_headers request_id n offsets).getD i []).getD 3 0 = i) ∧
      (n < 65536 →
        ((build_udp_headers request_id n offsets).getD i []).getD 4 0 * 256 +
          ((build_udp_headers request_id n offsets).getD i []).getD 5 0 = n)) := by
  refine ⟨fun c len c' hu hb h m hm => ?_,
          fun c c' hu hb h => (add_msghdr_bounded hb h).2,
          fun request_id n offsets i hi => ?_⟩
  · have hbound := add_iov_loop_bounded (len + 1) c len c' hu hb h m hm
    exact ⟨hbound, le_trans (Nat.sub_le _ _) hbound⟩
  · have hget : (build_udp_headers request_id n offsets).getD i [] =
        udp_header request_id i n (offsets i) := by
      unfold build_udp_headers
      rw [List.getD_eq_getElem?_getD]
      simp [List.getElem?_map, List.getElem?_range, hi]
    refine ⟨by simp [build_udp_headers], ?_, fun h1 => ?_, fun h2 => ?_,
      fun h3 => ?_⟩ <;> rw [hget] <;> unfold udp_header
    · rfl
    · show request_id / 256 % 256 * 256 + request_id % 256 = request_id
      omega
    · show i / 256 % 256 * 256 + i % 256 = i
      omega
    · show n / 256 % 256 * 256 + n % 256 = n
      omega

/-- Witness for C6: on a UDP connection holding one fresh
header-reserving message, adding a 1500-byte fragment splits into a full
1400-byte datagram and a 116-byte one, both within the limit; and in a
2-datagram response for request id 513, datagram 1's header bytes 2-3
encode sequence number 1. -/
theorem claim_C6_udp_framing_witness :
    ((1400 : Nat) ≤ UDP_MAX_PAYLOAD_SIZE ∧
      1400 - UDP_HEADER_SIZE ≤ UDP_MAX_PAYLOAD_SIZE) ∧
    ((build_udp_headers 513 2 offsets0).getD 1 []).getD 2 0 * 256 +
      ((build_udp_headers 513 2 offsets0).getD 1 []).getD 3 0 = 1 := by
  constructor
  · exact claim_C6_udp_framing.1 ⟨true, [⟨8, 1⟩], 2, 100⟩ 1500
      ⟨true, [⟨1400, 2⟩, ⟨116, 2⟩], 5, 100⟩ rfl
      (by intro m hm; rw [List.mem_singleton.1 hm]; decide) (by decide)
      ⟨1400, 2⟩ (by decide)
  · exact (claim_C6_udp_framing.2.2 513 2 offsets0 1 (by decide)).2.2.2.1
      (by decide)

end Memcached
